import Mathlib

/-!
Shallow embedding of `src/model/flow_matching.py` (FlowER).

Conventions of the embedding:

* A batch matrix has shape `(batch, node, node)`; a single sample is a square
  rational matrix, modelled as a function `Fin n → Fin n → ℚ`, and a batch is
  a function `Fin b → Mat n`.  Exact rational arithmetic stands in for the
  floating point of the source; `1e-19` becomes the exact rational
  `1 / 10 ^ 19`.
* The Gaussian draw `torch.randn(size)` is passed in explicitly as `rand`:
  every statement quantifies over it, so the theorems hold for every draw.
* `MATRIX_PAD` is an external constant imported by the source from
  `utils.data_utils`; it is passed around as an explicit parameter `pad`.
* `torch.vmap(zero_center_func)` maps over the batch axis; the embedding
  applies the per-sample function at each batch index, which is the same map.
* Rational division is total (`x / 0 = 0`); the one place where the source
  can divide by zero (an all-padding sample) is analysed separately, and the
  statement proved there does not depend on the value of the division because
  `masked_fill` overwrites every position of such a sample.
-/

namespace FlowMatching

/-- A single sample: a square matrix of rationals indexed by node pairs. -/
abbrev Mat (n : ℕ) : Type := Fin n → Fin n → ℚ

/-- `torch.sum(x)` / `mask.sum()`: sum of all entries of a single sample. -/
def totalSum {n : ℕ} (x : Mat n) : ℚ :=
  ∑ i, ∑ j, x i j

/-- `zero_center_func(x, node_mask)` from the source (lines 5-9):
`N = node_mask.sum(); mean = torch.sum(x) / N; return x - mean * node_mask`. -/
def zero_center_func {n : ℕ} (x node_mask : Mat n) : Mat n :=
  fun i j => x i j - (totalSum x / totalSum node_mask) * node_mask i j

/-- The fill constant `1e-19` of `masked_fill` (line 39), read exactly. -/
def fillConst : ℚ :=
  1 / 10 ^ 19

/-- Per-sample body of `ConditionalFlowMatcher.zero_centered_noise`
(lines 35-39): multiply the draw by the mask, zero-center with the mask
(the `vmap` slice of `zero_center_func`), then `masked_fill` every position
whose mask entry is zero with `1e-19`.  `rand` is the Gaussian draw. -/
def zero_centered_noise {n : ℕ} (rand node_mask_batch : Mat n) : Mat n :=
  fun i j =>
    if node_mask_batch i j = 0 then fillConst
    else zero_center_func (fun a b => rand a b * node_mask_batch a b) node_mask_batch i j

/-- `node_mask = (matrix[:, :, 0] != MATRIX_PAD)` (line 42), per sample, with
the boolean mask read as the `0/1` integer it is used as. -/
def nodeMask {n : ℕ} [NeZero n] (pad : ℚ) (matrix : Mat n) : Fin n → ℚ :=
  fun i => if matrix i 0 = pad then 0 else 1

/-- `masks = (node_mask.unsqueeze(1) * node_mask.unsqueeze(2)).long()`
(line 43), per sample: the pairwise outer product of the node mask. -/
def pairMask {n : ℕ} [NeZero n] (pad : ℚ) (matrix : Mat n) : Mat n :=
  fun i j => nodeMask pad matrix i * nodeMask pad matrix j

/-- `ConditionalFlowMatcher.sample_be_matrix` (lines 41-49), per sample:
derive the pairwise mask, synthesise masked zero-centered noise, symmetrise
it as `0.5 * (noise + noise.transpose(1, 2))`, scale by `sigma`, add. -/
def sample_be_matrix {n : ℕ} [NeZero n] (pad sigma : ℚ) (rand matrix : Mat n) : Mat n :=
  fun i j =>
    matrix i j +
      1 / 2 * (zero_centered_noise rand (pairMask pad matrix) i j
        + zero_centered_noise rand (pairMask pad matrix) j i) * sigma

/-- `sample_be_matrix` on a whole batch: every tensor operation of the source
acts independently on each batch slice (`vmap`, elementwise ops,
`transpose(1, 2)`), so the batched map applies the per-sample function at
each batch index. -/
def sample_be_matrix_batch {b n : ℕ} [NeZero n] (pad sigma : ℚ)
    (rand matrix : Fin b → Mat n) : Fin b → Mat n :=
  fun k => sample_be_matrix pad sigma (rand k) (matrix k)

/-- `ConditionalFlowMatcher.sample_conditional_pt` (lines 51-73):
`t = t.reshape(-1, 1, 1); mu_t = t * x1 + (1 - t) * x0;
return sample_be_matrix(mu_t)`, with `t` one scalar per batch element. -/
def sample_conditional_pt {b n : ℕ} [NeZero n] (pad sigma : ℚ)
    (rand x0 x1 : Fin b → Mat n) (t : Fin b → ℚ) : Fin b → Mat n :=
  fun k => sample_be_matrix pad sigma (rand k)
    (fun i j => t k * x1 k i j + (1 - t k) * x0 k i j)

/-- `ConditionalFlowMatcher.compute_conditional_vector_field` (lines 75-94):
`return x1 - x0`, elementwise over the whole batch. -/
def compute_conditional_vector_field {b n : ℕ} (x0 x1 : Fin b → Mat n) :
    Fin b → Mat n :=
  fun k i j => x1 k i j - x0 k i j

/-- The configuration object consumed by `ConditionalFlowMatcher.__init__`:
`args.device`, `args.sigma`, `args.emb_dim`. -/
structure FMArgs : Type where
  device : String
  sigma : ℚ
  emb_dim : ℕ

/-- The fields `ConditionalFlowMatcher.__init__` stores: `self.device`,
`self.sigma`, `self.dim`. -/
structure ConditionalFlowMatcher : Type where
  device : String
  sigma : ℚ
  dim : ℕ

/-- `ConditionalFlowMatcher.__init__` (lines 22-33): stores
`args.device`, `args.sigma` and `args.emb_dim`; the body performs no
validation of any kind, so construction cannot fail. -/
def ConditionalFlowMatcher.init (args : FMArgs) : ConditionalFlowMatcher :=
  ⟨args.device, args.sigma, args.emb_dim⟩

/-- The interpolation `t * x1 + (1 - t) * x0` of `sample_conditional_pt`
with the tensor runtime's shape semantics made explicit: after
`t.reshape(-1, 1, 1)`, the batch axis of `t` (length `t.length`) is
broadcast against the batch axis of `x0`/`x1` (length `x0.length`).  The
broadcast succeeds when the lengths agree or either length is `1`
(the size-one axis is repeated); otherwise the runtime raises a shape
mismatch error, modelled as `none`. -/
def mu_t_checked {n : ℕ} (t : List ℚ) (x0 x1 : List (Mat n)) :
    Option (List (Mat n)) :=
  if t.length = x0.length then
    some (List.zipWith (fun s p => fun i j => s * p.2 i j + (1 - s) * p.1 i j) t (x0.zip x1))
  else if t.length = 1 then
    some ((x0.zip x1).map (fun p => fun i j => t.headI * p.2 i j + (1 - t.headI) * p.1 i j))
  else if x0.length = 1 then
    some (t.map (fun s => fun i j => s * x1.headI i j + (1 - s) * x0.headI i j))
  else none

/-- `sample_conditional_pt` with the shape check of the interpolation step
made explicit; `sample_be_matrix` is shape-preserving, so it is mapped over
whatever batch the broadcast produced. -/
def sample_conditional_pt_checked {n : ℕ} [NeZero n] (pad sigma : ℚ)
    (rand : ℕ → Mat n) (t : List ℚ) (x0 x1 : List (Mat n)) :
    Option (List (Mat n)) :=
  (mu_t_checked t x0 x1).map fun l =>
    l.mapIdx fun k m => sample_be_matrix pad sigma (rand k) m

/-! ## Helper lemmas -/

/-- Distributing `totalSum` over the pointwise combination
`x i j - c * mask i j` that `zero_center_func` produces. -/
theorem totalSum_sub_smul {n : ℕ} (x mask : Mat n) (c : ℚ) :
    totalSum (fun i j => x i j - c * mask i j) = totalSum x - c * totalSum mask := by
  unfold totalSum
  rw [Finset.mul_sum, ← Finset.sum_sub_distrib]
  refine Finset.sum_congr rfl fun i _ => ?_
  rw [Finset.mul_sum, ← Finset.sum_sub_distrib]

/-! ## Claim theorems -/

/-- C10: for every 0/1 mask with positive sum and every same-shaped input
tensor, the sum over all positions of `zero_center_func x mask` is exactly
zero: the subtraction removes `(totalSum x / N) * mask`, whose total
contribution is `totalSum x`. -/
theorem zero_center_total_sum_eq_zero {n : ℕ} (x mask : Mat n)
    (h01 : ∀ i j, mask i j = 0 ∨ mask i j = 1)
    (hpos : 0 < totalSum mask) :
    totalSum (zero_center_func x mask) = 0 := by
  have hN : totalSum mask ≠ 0 := ne_of_gt hpos
  unfold zero_center_func
  rw [totalSum_sub_smul, div_mul_cancel₀ _ hN, sub_self]

/-- Witness for C10 at a concrete mask and tensor. -/
theorem zero_center_total_sum_eq_zero_witness :
    (∀ i j, (![![(1:ℚ), 0], ![0, 0]] : Mat 2) i j = 0 ∨ (![![(1:ℚ), 0], ![0, 0]] : Mat 2) i j = 1) ∧
    0 < totalSum (![![(1:ℚ), 0], ![0, 0]] : Mat 2) ∧
    totalSum (zero_center_func (![![(3:ℚ), 4], ![5, 6]] : Mat 2) (![![(1:ℚ), 0], ![0, 0]] : Mat 2)) = 0 :=
  ⟨by intro i j; fin_cases i <;> fin_cases j <;> simp,
   by simp [totalSum, Fin.sum_univ_two],
   zero_center_total_sum_eq_zero _ _
     (by intro i j; fin_cases i <;> fin_cases j <;> simp)
     (by simp [totalSum, Fin.sum_univ_two])⟩

/-- C2 counterexample: a 0/1 mask with sum 1 and a tensor carrying mass at a
masked-out position; the output of `zero_center_func`, multiplied by the mask
and summed, is `-1`, not zero.  The subtraction only annihilates the
unrestricted total sum, not the mask-restricted one. -/
theorem zero_center_masked_sum_cex :
    (∀ i j, (![![(1:ℚ), 0], ![0, 0]] : Mat 2) i j = 0 ∨ (![![(1:ℚ), 0], ![0, 0]] : Mat 2) i j = 1) ∧
    0 < totalSum (![![(1:ℚ), 0], ![0, 0]] : Mat 2) ∧
    totalSum (fun i j =>
      zero_center_func (![![(0:ℚ), 0], ![0, 1]] : Mat 2) (![![(1:ℚ), 0], ![0, 0]] : Mat 2) i j
        * (![![(1:ℚ), 0], ![0, 0]] : Mat 2) i j) ≠ 0 :=
  ⟨by intro i j; fin_cases i <;> fin_cases j <;> simp,
   by simp [totalSum, Fin.sum_univ_two],
   by simp [totalSum, zero_center_func, Fin.sum_univ_two]⟩

/-- C2 (amended): for every 0/1 mask with positive sum and every tensor that
vanishes at masked-out positions (as in the caller, which multiplies the draw
by the mask before centering), the output of `zero_center_func`, multiplied
elementwise by the mask and summed, is exactly zero. -/
theorem zero_center_masked_sum_eq_zero {n : ℕ} (x mask : Mat n)
    (h01 : ∀ i j, mask i j = 0 ∨ mask i j = 1)
    (hpos : 0 < totalSum mask)
    (hvan : ∀ i j, mask i j = 0 → x i j = 0) :
    totalSum (fun i j => zero_center_func x mask i j * mask i j) = 0 := by
  have hN : totalSum mask ≠ 0 := ne_of_gt hpos
  have hterm : ∀ i j, zero_center_func x mask i j * mask i j
      = x i j - (totalSum x / totalSum mask) * mask i j := by
    intro i j
    rcases h01 i j with h | h
    · simp [zero_center_func, h, hvan i j h]
    · simp [zero_center_func, h]
  calc totalSum (fun i j => zero_center_func x mask i j * mask i j)
      = totalSum (fun i j => x i j - (totalSum x / totalSum mask) * mask i j) := by
        unfold totalSum
        exact Finset.sum_congr rfl fun i _ => Finset.sum_congr rfl fun j _ => hterm i j
    _ = totalSum x - totalSum x / totalSum mask * totalSum mask := totalSum_sub_smul x mask _
    _ = 0 := by rw [div_mul_cancel₀ _ hN, sub_self]

/-- Witness for the amended C2 at a concrete mask and tensor. -/
theorem zero_center_masked_sum_eq_zero_witness :
    (∀ i j, (![![(1:ℚ), 0], ![0, 0]] : Mat 2) i j = 0 ∨ (![![(1:ℚ), 0], ![0, 0]] : Mat 2) i j = 1) ∧
    0 < totalSum (![![(1:ℚ), 0], ![0, 0]] : Mat 2) ∧
    (∀ i j, (![![(1:ℚ), 0], ![0, 0]] : Mat 2) i j = 0 → (![![(7:ℚ), 0], ![0, 0]] : Mat 2) i j = 0) ∧
    totalSum (fun i j =>
      zero_center_func (![![(7:ℚ), 0], ![0, 0]] : Mat 2) (![![(1:ℚ), 0], ![0, 0]] : Mat 2) i j
        * (![![(1:ℚ), 0], ![0, 0]] : Mat 2) i j) = 0 :=
  ⟨by intro i j; fin_cases i <;> fin_cases j <;> simp,
   by simp [totalSum, Fin.sum_univ_two],
   by intro i j; fin_cases i <;> fin_cases j <;> simp,
   zero_center_masked_sum_eq_zero _ _
     (by intro i j; fin_cases i <;> fin_cases j <;> simp)
     (by simp [totalSum, Fin.sum_univ_two])
     (by intro i j; fin_cases i <;> fin_cases j <;> simp)⟩

/-- C3: the output of masked noise synthesis at a position whose mask entry
is `0` equals the fill constant `1e-19` (which is not zero); at a position
whose mask entry is `1` it equals the zero-centered masked noise. -/
theorem zero_centered_noise_fill_spec {n : ℕ} (rand mask : Mat n) (i j : Fin n) :
    (mask i j = 0 → zero_centered_noise rand mask i j = fillConst ∧ fillConst ≠ 0) ∧
    (mask i j = 1 → zero_centered_noise rand mask i j
        = zero_center_func (fun a b => rand a b * mask a b) mask i j) := by
  constructor
  · intro h
    exact ⟨by simp [zero_centered_noise, h], by norm_num [fillConst]⟩
  · intro h
    simp [zero_centered_noise, h]

/-- Witness for C3: both branches at concrete positions of a concrete mask. -/
theorem zero_centered_noise_fill_spec_witness :
    zero_centered_noise (![![(5:ℚ), 7], ![11, 13]] : Mat 2) (![![(1:ℚ), 0], ![0, 0]] : Mat 2) 0 1
      = fillConst ∧
    zero_centered_noise (![![(5:ℚ), 7], ![11, 13]] : Mat 2) (![![(1:ℚ), 0], ![0, 0]] : Mat 2) 0 0
      = zero_center_func
          (fun a b => (![![(5:ℚ), 7], ![11, 13]] : Mat 2) a b * (![![(1:ℚ), 0], ![0, 0]] : Mat 2) a b)
          (![![(1:ℚ), 0], ![0, 0]] : Mat 2) 0 0 :=
  ⟨((zero_centered_noise_fill_spec _ _ 0 1).1 (by simp)).1,
   (zero_centered_noise_fill_spec _ _ 0 0).2 (by simp)⟩

/-- C7: `compute_conditional_vector_field` returns `x1 - x0` elementwise and
is antisymmetric in its two arguments. -/
theorem compute_conditional_vector_field_spec {b n : ℕ} (x0 x1 : Fin b → Mat n) :
    ∀ k i j, compute_conditional_vector_field x0 x1 k i j = x1 k i j - x0 k i j ∧
      compute_conditional_vector_field x0 x1 k i j
        = - compute_conditional_vector_field x1 x0 k i j := by
  intro k i j
  refine ⟨rfl, ?_⟩
  show x1 k i j - x0 k i j = -(x0 k i j - x1 k i j)
  ring

/-- C9 counterexample: constructing the matcher with `sigma = -1 ≤ 0` (an
invalid configuration) does not fail; `ConditionalFlowMatcher.init` is a
total function with no failure channel (the source `__init__` only stores
the fields) and returns a matcher holding the invalid `sigma`. -/
theorem init_accepts_nonpositive_sigma :
    ((-1 : ℚ) ≤ 0) ∧
    (ConditionalFlowMatcher.init ⟨"cuda", -1, 8⟩).sigma = -1 :=
  ⟨by norm_num, rfl⟩

/-- C9 (amended): construction never fails and performs no validation: it
stores `device`, `sigma` and `emb_dim` unchanged for every configuration,
including invalid ones. -/
theorem init_stores_config_unvalidated (args : FMArgs) :
    (ConditionalFlowMatcher.init args).device = args.device ∧
    (ConditionalFlowMatcher.init args).sigma = args.sigma ∧
    (ConditionalFlowMatcher.init args).dim = args.emb_dim :=
  ⟨rfl, rfl, rfl⟩

/-- C1 counterexample: for an asymmetric input matrix (all nodes valid, zero
noise draw) the output of `sample_be_matrix` is not symmetric: the injected
noise is symmetric, so the asymmetry of the input survives in the output. -/
theorem sample_be_matrix_symmetry_cex :
    sample_be_matrix_batch (99 : ℚ) 1 (fun _ => ![![0, 0], ![0, 0]])
        (fun _ : Fin 1 => ![![0, 1], ![2, 3]]) 0 0 1
      ≠ sample_be_matrix_batch (99 : ℚ) 1 (fun _ => ![![0, 0], ![0, 0]])
        (fun _ : Fin 1 => ![![0, 1], ![2, 3]]) 0 1 0 := by
  simp [sample_be_matrix_batch, sample_be_matrix, zero_centered_noise, zero_center_func,
    pairMask, nodeMask, totalSum, fillConst, Fin.sum_univ_two]

/-- C1 (amended): for every padded input batch matrix that is itself
symmetric under exchange of the two node axes, the output of
`sample_be_matrix` is symmetric at every batch index; the injected noise
term is symmetric for every input. -/
theorem sample_be_matrix_symm_of_symm {b n : ℕ} [NeZero n] (pad sigma : ℚ)
    (rand matrix : Fin b → Mat n)
    (hsym : ∀ k i j, matrix k i j = matrix k j i) :
    ∀ k i j, sample_be_matrix_batch pad sigma rand matrix k i j
           = sample_be_matrix_batch pad sigma rand matrix k j i := by
  intro k i j
  unfold sample_be_matrix_batch sample_be_matrix
  rw [hsym k i j]
  ring

/-- Witness for the amended C1 at a concrete symmetric input. -/
theorem sample_be_matrix_symm_of_symm_witness :
    (∀ k : Fin 1, ∀ i j, (fun _ : Fin 1 => (![![(0:ℚ), 5], ![5, 3]] : Mat 2)) k i j
        = (fun _ : Fin 1 => (![![(0:ℚ), 5], ![5, 3]] : Mat 2)) k j i) ∧
    sample_be_matrix_batch (99 : ℚ) 2 (fun _ => (![![(1:ℚ), 4], ![6, 8]] : Mat 2))
        (fun _ : Fin 1 => (![![(0:ℚ), 5], ![5, 3]] : Mat 2)) 0 0 1
      = sample_be_matrix_batch (99 : ℚ) 2 (fun _ => (![![(1:ℚ), 4], ![6, 8]] : Mat 2))
        (fun _ : Fin 1 => (![![(0:ℚ), 5], ![5, 3]] : Mat 2)) 0 1 0 :=
  ⟨by intro k i j; fin_cases i <;> fin_cases j <;> simp,
   sample_be_matrix_symm_of_symm 99 2 _ _
     (by intro k i j; fin_cases i <;> fin_cases j <;> simp) 0 0 1⟩

/-- C4: evaluation of the code at the degenerate input.  For a sample whose
node mask is all-zero (every row's 0th feature equals the pad sentinel),
`sample_be_matrix` does not fail: the pairwise mask is identically zero, so
`masked_fill` overwrites every position of the sample with the fill constant
and the call returns `matrix + sigma * 1e-19` everywhere — the value of the
zero-denominator mean never reaches the output. -/
theorem degenerate_mask_returns_fill {n : ℕ} [NeZero n] (pad sigma : ℚ)
    (rand matrix : Mat n) (hdeg : ∀ i, matrix i 0 = pad) :
    ∀ i j, sample_be_matrix pad sigma rand matrix i j
         = matrix i j + fillConst * sigma := by
  have hm : ∀ a c, pairMask pad matrix a c = 0 := by
    intro a c
    simp [pairMask, nodeMask, hdeg a]
  have hz : ∀ a c, zero_centered_noise rand (pairMask pad matrix) a c = fillConst := by
    intro a c
    simp [zero_centered_noise, hm]
  intro i j
  unfold sample_be_matrix
  rw [hz i j, hz j i]
  ring

/-- Witness for C4 at a concrete all-padding sample. -/
theorem degenerate_mask_returns_fill_witness :
    (∀ i, (![![(7:ℚ), 1], ![7, 2]] : Mat 2) i 0 = 7) ∧
    sample_be_matrix 7 3 (![![(1:ℚ), 2], ![3, 4]] : Mat 2) (![![(7:ℚ), 1], ![7, 2]] : Mat 2) 0 1
      = (![![(7:ℚ), 1], ![7, 2]] : Mat 2) 0 1 + fillConst * 3 :=
  ⟨by intro i; fin_cases i <;> simp,
   degenerate_mask_returns_fill 7 3 _ _ (by intro i; fin_cases i <;> simp) 0 1⟩

/-- C5: at every invalid node-pair position (either node's 0th feature equals
the pad sentinel) the output of `sample_be_matrix` equals the input plus
exactly `sigma` times the fill constant, and at every position the
perturbation `out - in` is symmetric under exchange of the node axes. -/
theorem sample_be_matrix_frame {b n : ℕ} [NeZero n] (pad sigma : ℚ)
    (rand matrix : Fin b → Mat n) :
    (∀ k i j, (matrix k i 0 = pad ∨ matrix k j 0 = pad) →
      sample_be_matrix_batch pad sigma rand matrix k i j
        = matrix k i j + fillConst * sigma) ∧
    (∀ k i j, sample_be_matrix_batch pad sigma rand matrix k i j - matrix k i j
            = sample_be_matrix_batch pad sigma rand matrix k j i - matrix k j i) := by
  constructor
  · intro k i j h
    have h1 : pairMask pad (matrix k) i j = 0 := by
      rcases h with h | h <;> simp [pairMask, nodeMask, h]
    have h2 : pairMask pad (matrix k) j i = 0 := by
      rcases h with h | h <;> simp [pairMask, nodeMask, h]
    have hz1 : zero_centered_noise (rand k) (pairMask pad (matrix k)) i j = fillConst := by
      simp [zero_centered_noise, h1]
    have hz2 : zero_centered_noise (rand k) (pairMask pad (matrix k)) j i = fillConst := by
      simp [zero_centered_noise, h2]
    unfold sample_be_matrix_batch sample_be_matrix
    rw [hz1, hz2]
    ring
  · intro k i j
    unfold sample_be_matrix_batch sample_be_matrix
    ring

/-- Witness for C5: an invalid pair of a concrete matrix whose node 0 is
padding, plus the perturbation symmetry at a concrete position. -/
theorem sample_be_matrix_frame_witness :
    ((![![(7:ℚ), 1], ![0, 2]] : Mat 2) 0 0 = 7 ∨ (![![(7:ℚ), 1], ![0, 2]] : Mat 2) 1 0 = 7) ∧
    sample_be_matrix_batch (7 : ℚ) 5 (fun _ => (![![(1:ℚ), 2], ![3, 4]] : Mat 2))
        (fun _ : Fin 1 => (![![(7:ℚ), 1], ![0, 2]] : Mat 2)) 0 0 1
      = (![![(7:ℚ), 1], ![0, 2]] : Mat 2) 0 1 + fillConst * 5 ∧
    sample_be_matrix_batch (7 : ℚ) 5 (fun _ => (![![(1:ℚ), 2], ![3, 4]] : Mat 2))
        (fun _ : Fin 1 => (![![(7:ℚ), 1], ![0, 2]] : Mat 2)) 0 0 1
        - (![![(7:ℚ), 1], ![0, 2]] : Mat 2) 0 1
      = sample_be_matrix_batch (7 : ℚ) 5 (fun _ => (![![(1:ℚ), 2], ![3, 4]] : Mat 2))
        (fun _ : Fin 1 => (![![(7:ℚ), 1], ![0, 2]] : Mat 2)) 0 1 0
        - (![![(7:ℚ), 1], ![0, 2]] : Mat 2) 1 0 :=
  ⟨Or.inl (by simp),
   (sample_be_matrix_frame 7 5 _ _).1 0 0 1 (Or.inl (by simp)),
   (sample_be_matrix_frame 7 5 _ _).2 0 0 1⟩

/-- C6: with `sigma = 0`, `sample_conditional_pt` returns `x0` unchanged on
the all-zero time vector and `x1` unchanged on the all-one time vector: the
noise term is multiplied by `sigma` and the interpolation reduces to the
endpoint. -/
theorem sample_conditional_pt_endpoints {b n : ℕ} [NeZero n] (pad : ℚ)
    (rand x0 x1 : Fin b → Mat n) (t : Fin b → ℚ) :
    ((∀ k, t k = 0) → ∀ k i j,
      sample_conditional_pt pad 0 rand x0 x1 t k i j = x0 k i j) ∧
    ((∀ k, t k = 1) → ∀ k i j,
      sample_conditional_pt pad 0 rand x0 x1 t k i j = x1 k i j) := by
  constructor <;>
    · intro ht k i j
      unfold sample_conditional_pt sample_be_matrix
      rw [ht k]
      ring

/-- Witness for C6: both endpoints at a concrete pair of batches. -/
theorem sample_conditional_pt_endpoints_witness :
    (∀ k : Fin 1, (fun _ : Fin 1 => (0:ℚ)) k = 0) ∧
    (∀ k : Fin 1, (fun _ : Fin 1 => (1:ℚ)) k = 1) ∧
    sample_conditional_pt (9 : ℚ) 0 (fun _ => (![![(2:ℚ), 2], ![2, 2]] : Mat 2))
        (fun _ : Fin 1 => (![![(1:ℚ), 2], ![3, 4]] : Mat 2))
        (fun _ : Fin 1 => (![![(5:ℚ), 6], ![7, 8]] : Mat 2))
        (fun _ => 0) 0 0 1
      = (![![(1:ℚ), 2], ![3, 4]] : Mat 2) 0 1 ∧
    sample_conditional_pt (9 : ℚ) 0 (fun _ => (![![(2:ℚ), 2], ![2, 2]] : Mat 2))
        (fun _ : Fin 1 => (![![(1:ℚ), 2], ![3, 4]] : Mat 2))
        (fun _ : Fin 1 => (![![(5:ℚ), 6], ![7, 8]] : Mat 2))
        (fun _ => 1) 0 0 1
      = (![![(5:ℚ), 6], ![7, 8]] : Mat 2) 0 1 :=
  ⟨fun _ => rfl, fun _ => rfl,
   (sample_conditional_pt_endpoints 9 _ _ _ _).1 (fun _ => rfl) 0 0 1,
   (sample_conditional_pt_endpoints 9 _ _ _ _).2 (fun _ => rfl) 0 0 1⟩

/-- C8 counterexample: a time vector with a single element against a batch of
size two does not fail: `t.reshape(-1, 1, 1)` has batch length 1, which the
runtime broadcasts against the batch, so the call succeeds although the
batch dimension of `t` does not match the batch size of `x0`/`x1`. -/
theorem sample_conditional_pt_broadcast_cex :
    ([(1:ℚ)/2].length ≠
      [(fun _ _ => (0:ℚ) : Mat 2), (fun _ _ => (0:ℚ) : Mat 2)].length) ∧
    (sample_conditional_pt_checked (9:ℚ) 1 (fun _ => (fun _ _ => 0 : Mat 2)) [1/2]
      [(fun _ _ => 0 : Mat 2), (fun _ _ => 0 : Mat 2)]
      [(fun _ _ => 1 : Mat 2), (fun _ _ => 1 : Mat 2)]).isSome = true :=
  ⟨by simp, rfl⟩

/-- C8 (amended): the call fails with a shape-mismatch error (modelled as
`none`) whenever the batch length of `t` differs from the batch size of
`x0`/`x1` and neither length is one; a length of one is broadcast instead of
failing. -/
theorem sample_conditional_pt_shape_mismatch_none {n : ℕ} [NeZero n]
    (pad sigma : ℚ) (rand : ℕ → Mat n) (t : List ℚ) (x0 x1 : List (Mat n))
    (h1 : t.length ≠ x0.length) (h2 : t.length ≠ 1) (h3 : x0.length ≠ 1) :
    sample_conditional_pt_checked pad sigma rand t x0 x1 = none := by
  unfold sample_conditional_pt_checked mu_t_checked
  rw [if_neg h1, if_neg h2, if_neg h3]
  rfl

/-- Witness for the amended C8: a length-2 time vector against a batch of
size three fails. -/
theorem sample_conditional_pt_shape_mismatch_none_witness :
    ([(1:ℚ), 2].length ≠
      [(fun _ _ => (0:ℚ) : Mat 2), (fun _ _ => (0:ℚ) : Mat 2), (fun _ _ => (0:ℚ) : Mat 2)].length) ∧
    ([(1:ℚ), 2].length ≠ 1) ∧
    ([(fun _ _ => (0:ℚ) : Mat 2), (fun _ _ => (0:ℚ) : Mat 2), (fun _ _ => (0:ℚ) : Mat 2)].length ≠ 1) ∧
    sample_conditional_pt_checked (9:ℚ) 1 (fun _ => (fun _ _ => 0 : Mat 2)) [1, 2]
      [(fun _ _ => 0 : Mat 2), (fun _ _ => 0 : Mat 2), (fun _ _ => 0 : Mat 2)]
      [(fun _ _ => 1 : Mat 2), (fun _ _ => 1 : Mat 2), (fun _ _ => 1 : Mat 2)] = none :=
  ⟨by simp, by simp, by simp,
   sample_conditional_pt_shape_mismatch_none 9 1 _ _ _ _
     (by simp) (by simp) (by simp)⟩

end FlowMatching
